import Mathlib

/-!
Verification of the VulnSight orchestration core
(src/Vulnsight101/backend/server.py).

The Python values that flow between the registry, invoker, classifier,
normalizer and aggregator are semi-structured dictionaries; we embed them
as the inductive type Val below.  Each Lean definition mirrors one Python
function of server.py; line references are given in comments.
-/

set_option maxHeartbeats 1000000

namespace VulnSight

/-- Shallow embedding of the Python values produced and consumed by the
scan pipeline: strings, non-negative integers, lists, dicts (association
lists in insertion order, unique keys) and None. -/
inductive Val where
  | str (s : String)
  | nat (n : Nat)
  | list (l : List Val)
  | dict (d : List (String × Val))
  | none
deriving Repr

/-- Python dict.get(k, dflt): first entry with the given key, else the default. -/
def getD : List (String × Val) → String → Val → Val
  | [], _, dflt => dflt
  | p :: t, k, dflt => if p.1 = k then p.2 else getD t k dflt

/-- Python `k in d` for dicts. -/
def hasKeyB : List (String × Val) → String → Bool
  | [], _ => false
  | p :: t, k => if p.1 = k then true else hasKeyB t k

/-- Field access on a dict-shaped value (used to state properties of constructed
findings); None on non-dicts or missing keys. -/
def fget (v : Val) (k : String) : Val :=
  match v with
  | .dict d => getD d k .none
  | _ => .none

/-- Extract a string field, if the field holds a string. -/
def fgetStr (v : Val) (k : String) : Option String :=
  match fget v k with
  | .str s => some s
  | _ => Option.none

/-- Python truthiness of an embedded value. -/
def pyTruthy : Val → Bool
  | .str s => !(s = "")
  | .nat n => !(n = 0)
  | .list l => !l.isEmpty
  | .dict d => !d.isEmpty
  | .none => false

/-- Python `a or b`: the first operand when truthy, otherwise the second. -/
def pyOr (a b : Val) : Val := if pyTruthy a then a else b

/-- Python `v == n` against an int literal (no numeric coercions are needed here). -/
def valEqNat (v : Val) (n : Nat) : Bool :=
  match v with
  | .nat m => m = n
  | _ => false

/-- The apostrophe character (Python repr quotes strings with it). -/
def squote : Char := Char.ofNat 39

/-- A string wrapped in apostrophes, as Python repr renders a string. -/
def sq (s : String) : String := String.singleton squote ++ s ++ String.singleton squote

/-- Python str.lower() restricted to ASCII, applied characterwise. -/
def pyLower (s : String) : String := ⟨s.data.map Char.toLower⟩

/-- One step of Python str.title(): an alphabetic character is uppercased
after a non-alphabetic character and lowercased otherwise. -/
def pyTitleAux : List Char → Bool → List Char
  | [], _ => []
  | c :: t, prevAlpha =>
    if c.isAlpha then
      (if prevAlpha then c.toLower else c.toUpper) :: pyTitleAux t true
    else
      c :: pyTitleAux t false

/-- Python str.title(). -/
def pyTitle (s : String) : String := ⟨pyTitleAux s.data false⟩

/-- Python str.replace applied to single characters, here underscore to space. -/
def underscoreToSpace (s : String) : String :=
  ⟨s.data.map (fun c => if c = '_' then ' ' else c)⟩

mutual

/-- Python repr() of an embedded value (strings in the pipeline contain no
characters that repr would escape). -/
def pyRepr : Val → String
  | .str s => sq s
  | .nat n => toString n
  | .none => "None"
  | .list l => "[" ++ pyReprList l ++ "]"
  | .dict d => "\x7b" ++ pyReprDict d ++ "\x7d"

/-- Comma-separated repr of list elements. -/
def pyReprList : List Val → String
  | [] => ""
  | [v] => pyRepr v
  | v :: w :: t => pyRepr v ++ ", " ++ pyReprList (w :: t)

/-- Comma-separated repr of dict entries. -/
def pyReprDict : List (String × Val) → String
  | [] => ""
  | [(k, v)] => sq k ++ ": " ++ pyRepr v
  | (k, v) :: q :: t => sq k ++ ": " ++ pyRepr v ++ ", " ++ pyReprDict (q :: t)

end

/-- Python str() of an embedded value. -/
def pyStr : Val → String
  | .str s => s
  | v => pyRepr v

/-- Does needle occur at the head of hay? (list-level prefix test) -/
def leadsWith : List Char → List Char → Bool
  | [], _ => true
  | _ :: _, [] => false
  | a :: as, b :: bs => if a = b then leadsWith as bs else false

/-- Does needle occur as a contiguous sublist of hay? -/
def subIn (needle : List Char) : List Char → Bool
  | [] => needle.isEmpty
  | c :: t => if leadsWith needle (c :: t) then true else subIn needle t

/-- Python `needle in hay` on strings. -/
def strContainsB (hay needle : String) : Bool := subIn needle.data hay.data

/-- Python exceptions that matter to the invoker: TypeError (consumed by the
calling-convention fallback) versus everything else. -/
inductive PyErr where
  | typeError (msg : String)
  | other (msg : String)
deriving Repr

/-- Python str(e) for an exception. -/
def PyErr.msg : PyErr → String
  | .typeError m => m
  | .other m => m

/-- A probe capability at a fixed target URL: which of the three calling
conventions of server.py:127-134 its signature accepts, and the outcome of
its body (a result value, or an exception it raises) when actually run. -/
structure Capability where
  acceptsUrl : Bool
  acceptsUrlTimeout : Bool
  acceptsTarget : Bool
  body : Except PyErr Val

/-- Calling a Python callable under one convention: a signature mismatch
raises TypeError without running the body; otherwise the body runs once. -/
def callConv (c : Capability) (accepts : Bool) : Except PyErr Val × Nat :=
  if accepts then (c.body, 1) else (.error (.typeError "unexpected arguments"), 0)

/-- server.py:127-134 `_call_tool_callable`, instrumented with the number of
times the capability body actually executes.  Mirrors:
try callable(url) / except TypeError: try callable(url, timeout=10) /
except TypeError: callable(target=url). -/
def callToolCallableC (c : Capability) : Except PyErr Val × Nat :=
  let r1 := callConv c c.acceptsUrl
  match r1.1 with
  | .error (.typeError _) =>
    let r2 := callConv c c.acceptsUrlTimeout
    (match r2.1 with
     | .error (.typeError _) =>
       let r3 := callConv c c.acceptsTarget
       (r3.1, r1.2 + r2.2 + r3.2)
     | r => (r, r1.2 + r2.2))
  | r => (r, r1.2)

/-- server.py:127-134 `_call_tool_callable`: the returned value or escaping
exception. -/
def callToolCallable (c : Capability) : Except PyErr Val :=
  (callToolCallableC c).1

/-- server.py:147 — the fixed keyword set of the blocked-response classifier. -/
def blockedKeywords : List String :=
  ["captcha", "verify you are human", "cloudflare", "bot", "challenge", "access denied"]

/-- server.py:151-159 — the standardized blocked payload. -/
def blockedPayload (reasons : List String) (meta : Val) : Val :=
  .dict [("error", .str "Target likely blocked scan / WAF protection triggered"),
         ("severity", .str "Unknown"),
         ("description", .str "Scan could not retrieve headers/content due to bot protection/firewall."),
         ("fix", .str "Manual verification required; optionally use browser-based scan mode."),
         ("references", .list []),
         ("_meta", meta),
         ("blocked_reasons", .list (reasons.map .str))]

/-- server.py:136-160 `classify_blocked_response`.  A non-dict result passes
through; a dict result is checked for the HTTP 403/429 signal and, when the
extracted snippet is truthy, for the keyword signals (lowercasing a non-string
snippet raises AttributeError, which escapes, hence the Except codomain). -/
def classify_blocked_response (tool_result : Val) : Except PyErr Val :=
  match tool_result with
  | .dict d =>
    let status := pyOr (getD d "status_code" .none) (getD d "response_status_code" .none)
    let snippet := pyOr (getD d "text_snippet" (.str "")) (getD d "body_snippet" (.str ""))
    let r1 : List String :=
      if valEqNat status 403 || valEqNat status 429 then ["HTTP " ++ pyStr status] else []
    if pyTruthy snippet then
      match snippet with
      | .str s =>
        let reasons := r1 ++ blockedKeywords.filter (fun k => strContainsB (pyLower s) k)
        if reasons = [] then .ok tool_result
        else .ok (blockedPayload reasons (getD d "_meta" (.dict [])))
      | _ => .error (.other "AttributeError")
    else
      if r1 = [] then .ok tool_result
      else .ok (blockedPayload r1 (getD d "_meta" (.dict [])))
  | v => .ok v

/-- server.py:165 — the human-readable name derived from a probe id. -/
def defaultName (vuln : String) : String := pyTitle (underscoreToSpace vuln)

/-- server.py:169 — the generic 3-item reference list. -/
def defaultRefs (vuln : String) : Val :=
  .list [.str ("OWASP " ++ defaultName vuln ++ " Prevention"),
         .str "CWE Reference", .str "NIST Guidelines"]

/-- server.py:183 — status is "error" iff the lowercase rendering of the raw
result contains the substring "error". -/
def statusFor (data : Val) : String :=
  if strContainsB (pyLower (pyStr data)) "error" then "error" else "ok"

/-- server.py:162-191 — the body of the loop of `normalize_results` for one
(probe id, classified result) pair. -/
def normalize_one (vuln : String) (data : Val) : Val :=
  let name := defaultName vuln
  let mk : Val → Val → Val → Val → Val → Val := fun nm sev desc fx refs =>
    .dict [("id", .str vuln), ("status", .str (statusFor data)), ("name", nm),
           ("severity", sev), ("description", desc), ("fix", fx),
           ("references", refs), ("details", data)]
  match data with
  | .dict d =>
    if hasKeyB d "error" then
      mk (.str name)
         (getD d "severity" (.str "Unknown"))
         (getD d "description" (getD d "error" .none))
         (getD d "fix" (.str "Check backend service"))
         (defaultRefs vuln)
    else
      mk (getD d "name" (.str name))
         (getD d "severity" (.str "Unknown"))
         (getD d "description" (.str "No description provided."))
         (getD d "fix" (.str "No fix recommendation available."))
         (getD d "references" (defaultRefs vuln))
  | _ =>
    mk (.str name) (.str "Unknown") (.str "No description provided.")
       (.str "No fix recommendation available.") (defaultRefs vuln)

/-- server.py:162-191 `normalize_results` over the fan-in dict. -/
def normalize_results (raw_results : List (String × Val)) : List Val :=
  raw_results.map (fun p => normalize_one p.1 p.2)

/-- server.py:455 — `r.get("severity", "").lower()`: raises (Except.error) on a
non-dict entry or a non-string severity, as the Python attribute access does. -/
def sevLowerE (r : Val) : Except Unit String :=
  match r with
  | .dict d =>
    match getD d "severity" (.str "") with
    | .str s => .ok (pyLower s)
    | _ => .error ()
  | _ => .error ()

/-- server.py:455 — the generator-sum computing high_count; the first
exception aborts the whole sum. -/
def highCountE : List Val → Except Unit Nat
  | [] => .ok 0
  | r :: t =>
    match sevLowerE r with
    | .error e => .error e
    | .ok s =>
      match highCountE t with
      | .error e => .error e
      | .ok n => .ok ((if s = "critical" ∨ s = "high" then 1 else 0) + n)

/-- server.py:453-465 — the risk computation with its try/except: any
exception yields score 0 and level "Unknown". -/
def riskOf (normalized : List Val) : Nat × String :=
  match highCountE normalized with
  | .error _ => (0, "Unknown")
  | .ok hc =>
    (min 100 (hc * 10), if hc ≥ 3 then "High" else if hc = 0 then "Low" else "Medium")

/-- server.py:111-124 — the TOOLS mapping from probe id to module path. -/
def TOOLS : List (String × String) :=
  [("clickjacking", "Tools.ClickJacking_Tester"),
   ("cors", "Tools.CORS_detection"),
   ("directory_listing", "Tools.Directory_Listing_Check"),
   ("http_headers", "Tools.HTTP_Security_Header_Analysis"),
   ("insecure_cookies", "Tools.Missing_Cookies"),
   ("open_redirect", "Tools.OpenRedirect"),
   ("outdated_software", "Tools.outdates_software"),
   ("info_disclosure", "Tools.Sensitive_Info_Disclosure"),
   ("ssl_tls", "Tools.SSL_TLS_checker"),
   ("xss", "Tools.XSS"),
   ("sql_injection", "Tools.SQL_injection"),
   ("path_traversal", "Tools.pathtraversal")]

/-- What resolving one probe id yields in server.py:294-310: the id is not
in TOOLS, the module import raises, no callable named run/scan/main/check is
found, or a capability is obtained. -/
inductive Resolved where
  | notFound
  | importError (msg : String)
  | noCallable (path : String)
  | cap (c : Capability)

/-- server.py:296 — the synthesized result for an id absent from the registry. -/
def notFoundDict (vuln : String) : Val :=
  .dict [("error", .str ("Tool " ++ sq vuln ++ " not found"))]

/-- server.py:362 — the per-probe payload of the batch-level exception handler. -/
def failDict (e : PyErr) : Val :=
  .dict [("error", .str ("Tool run failed: " ++ e.msg))]

/-- server.py:293-313 `run_tool_async`, instrumented with the number of times
the resolved capability body executes.  Registry misses and import/lookup
failures synthesize error dicts without any invocation; an invocation result
is classified; an exception of the capability (or of the classifier) escapes. -/
def run_tool_asyncC (reg : String → Resolved) (vuln : String) :
    Except PyErr (String × Val) × Nat :=
  match reg vuln with
  | .notFound => (.ok (vuln, notFoundDict vuln), 0)
  | .importError m => (.ok (vuln, .dict [("error", .str ("ImportError: " ++ m))]), 0)
  | .noCallable p => (.ok (vuln, .dict [("error", .str ("No callable found in " ++ p))]), 0)
  | .cap c =>
    let rc := callToolCallableC c
    (match rc.1 with
     | .error e => .error e
     | .ok r =>
       match classify_blocked_response r with
       | .error e => .error e
       | .ok cr => .ok (vuln, cr), rc.2)

/-- server.py:293-313 `run_tool_async`: the (id, classified result) pair, or
the escaping exception. -/
def run_tool_async (reg : String → Resolved) (vuln : String) :
    Except PyErr (String × Val) :=
  (run_tool_asyncC reg vuln).1

/-- asyncio.gather(..., return_exceptions=False): all results in task order,
or the exception of the (first) faulting task. -/
def gatherE {α : Type} : List (Except PyErr α) → Except PyErr (List α)
  | [] => .ok []
  | .error e :: _ => .error e
  | .ok a :: rest =>
    match gatherE rest with
    | .error e => .error e
    | .ok l => .ok (a :: l)

/-- Python dict insertion: an existing key keeps its position and gets the
new value, a new key is appended. -/
def dictInsert (d : List (String × Val)) (k : String) (v : Val) : List (String × Val) :=
  if hasKeyB d k then d.map (fun p => if p.1 = k then (k, v) else p)
  else d ++ [(k, v)]

/-- A Python dict built from a list of pairs (the comprehension on
server.py:356 and server.py:362). -/
def dictOfPairs (l : List (String × Val)) : List (String × Val) :=
  l.foldl (fun d p => dictInsert d p.1 p.2) []

/-- server.py:353-356 `run_all_tools`: fan out one task per selected id,
gather, and merge into a dict keyed by id. -/
def run_all_tools (reg : String → Resolved) (selected_vulns : List String) :
    Except PyErr (List (String × Val)) :=
  match gatherE (selected_vulns.map (run_tool_async reg)) with
  | .error e => .error e
  | .ok completed => .ok (dictOfPairs completed)

/-- server.py:358-362 — raw_results: the fan-in dict, or, when an exception
escaped the dispatcher, the synthesized per-probe failure dict. -/
def raw_results_of (reg : String → Resolved) (selected_vulns : List String) :
    List (String × Val) :=
  match run_all_tools reg selected_vulns with
  | .ok d => d
  | .error e => dictOfPairs (selected_vulns.map (fun v => (v, failDict e)))

/-- server.py:453 — the normalized findings of one scan (the `results` field
of the report). -/
def scan_findings (reg : String → Resolved) (selected_vulns : List String) : List Val :=
  normalize_results (raw_results_of reg selected_vulns)

/-- server.py:453-465 — the (risk_score, risk_level) pair of one scan. -/
def scan_risk (reg : String → Resolved) (selected_vulns : List String) : Nat × String :=
  riskOf (scan_findings reg selected_vulns)

/-- The exception of the first faulting task among the selected probes, if any. -/
def firstErr (reg : String → Resolved) : List String → Option PyErr
  | [] => Option.none
  | v :: t =>
    match run_tool_async reg v with
    | .error e => some e
    | .ok _ => firstErr reg t

/-- The classified result of a non-faulting probe (None for a faulting one). -/
def okPart (reg : String → Resolved) (v : String) : Val :=
  match run_tool_async reg v with
  | .ok p => p.2
  | .error _ => .none

/-- The requested ids with later duplicates dropped, excluding ids already seen. -/
def firstDedupFrom (seen : List String) : List String → List String
  | [] => []
  | v :: t => if v ∈ seen then firstDedupFrom seen t else v :: firstDedupFrom (v :: seen) t

/-- The requested ids with later duplicates dropped (Python dict key order). -/
def firstDedup (l : List String) : List String := firstDedupFrom [] l

/-- The first finding carrying the given probe id. -/
def findingFor (fs : List Val) (v : String) : Option Val :=
  fs.find? (fun f => fgetStr f "id" = some v)

/-! ### Helper lemmas: strings and substring search -/

theorem strData_append (a b : String) : (a ++ b).data = a.data ++ b.data := by
  cases a; cases b; rfl

theorem strAppend_assoc (a b c : String) : a ++ b ++ c = a ++ (b ++ c) := by
  apply String.ext
  simp [strData_append]

theorem pyLower_data (s : String) : (pyLower s).data = s.data.map Char.toLower := rfl

theorem leadsWith_append (n y : List Char) : leadsWith n (n ++ y) = true := by
  induction n with
  | nil => rfl
  | cons c t ih => simpa [leadsWith] using ih

theorem subIn_cons_of (n : List Char) (c : Char) (t : List Char)
    (h : subIn n t = true) : subIn n (c :: t) = true := by
  rw [subIn]
  split <;> simp [h]

theorem subIn_self_append (n y : List Char) : subIn n (n ++ y) = true := by
  cases n with
  | nil => cases y <;> rfl
  | cons c t =>
    rw [List.cons_append, subIn]
    have h := leadsWith_append (c :: t) y
    rw [List.cons_append] at h
    simp [h]

theorem subIn_append_left (n b : List Char) (h : subIn n b = true) :
    ∀ a : List Char, subIn n (a ++ b) = true := by
  intro a
  induction a with
  | nil => simpa using h
  | cons c t ih => exact subIn_cons_of n c (t ++ b) ih

theorem subIn_middle (x n y : List Char) : subIn n (x ++ n ++ y) = true := by
  rw [List.append_assoc]
  exact subIn_append_left n (n ++ y) (subIn_self_append n y) x

/-- Reshaping of the dict repr: first entry followed by a separator-tail. -/
def dictSep : List (String × Val) → String
  | [] => ""
  | q :: t => ", " ++ pyReprDict (q :: t)

theorem pyReprDict_cons (p : String × Val) (t : List (String × Val)) :
    pyReprDict (p :: t) = sq p.1 ++ ": " ++ pyRepr p.2 ++ dictSep t := by
  cases p with
  | mk k v =>
    cases t with
    | nil => simp [pyReprDict, dictSep, strAppend_assoc]
    | cons q r => simp [pyReprDict, dictSep, strAppend_assoc]

theorem pyReprDict_key_split (k : String) :
    ∀ d : List (String × Val), hasKeyB d k = true →
    ∃ a b : String, pyReprDict d = a ++ k ++ b := by
  intro d
  induction d with
  | nil => intro h; simp [hasKeyB] at h
  | cons p t ih =>
    intro h
    rw [hasKeyB] at h
    by_cases hk : p.1 = k
    · refine ⟨String.singleton squote,
        String.singleton squote ++ ": " ++ pyRepr p.2 ++ dictSep t, ?_⟩
      rw [pyReprDict_cons, hk]
      simp [sq, strAppend_assoc]
    · simp [hk] at h
      obtain ⟨a, b, hab⟩ := ih h
      have ht : t ≠ [] := by
        intro he; rw [he] at h; simp [hasKeyB] at h
      refine ⟨sq p.1 ++ ": " ++ pyRepr p.2 ++ ", " ++ a, b, ?_⟩
      rw [pyReprDict_cons]
      cases t with
      | nil => cases ht rfl
      | cons q r =>
        rw [show dictSep (q :: r) = ", " ++ pyReprDict (q :: r) from rfl, hab]
        simp [strAppend_assoc]

theorem statusFor_error_dict (d : List (String × Val)) (h : hasKeyB d "error" = true) :
    statusFor (.dict d) = "error" := by
  obtain ⟨a, b, hab⟩ := pyReprDict_key_split "error" d h
  have hcontains : strContainsB (pyLower (pyStr (.dict d))) "error" = true := by
    show subIn ("error").data (pyLower (pyStr (.dict d))).data = true
    have hdata : (pyStr (.dict d)).data
        = ("\x7b" ++ a).data ++ ("error").data ++ (b ++ "\x7d").data := by
      show (pyRepr (.dict d)).data = _
      rw [pyRepr, hab]
      simp [strData_append, List.append_assoc]
    rw [pyLower_data, hdata]
    simp only [List.map_append]
    have hlow : ("error").data.map Char.toLower = ("error").data := by decide
    rw [hlow]
    exact subIn_middle _ _ _
  rw [statusFor, hcontains]
  simp

/-! ### Helper lemmas: dict fan-in and the dispatcher characterization -/

theorem hasKeyB_iff (k : String) : ∀ d : List (String × Val),
    hasKeyB d k = true ↔ k ∈ d.map Prod.fst := by
  intro d
  induction d with
  | nil => simp [hasKeyB]
  | cons p t ih =>
    rw [hasKeyB]
    by_cases hk : p.1 = k
    · simp [hk]
    · simp only [hk, if_false, ih, List.map_cons, List.mem_cons]
      constructor
      · intro h; exact Or.inr h
      · rintro (h | h)
        · cases hk h.symm
        · exact h

theorem dictInsert_mem (F : String → Val) (d : List (String × Val)) (k : String)
    (hd : ∀ p ∈ d, p.2 = F p.1) (hk : k ∈ d.map Prod.fst) :
    dictInsert d k (F k) = d := by
  rw [dictInsert, if_pos ((hasKeyB_iff k d).2 hk)]
  have : ∀ p ∈ d, (if p.1 = k then (k, F k) else p) = p := by
    intro p hp
    by_cases h : p.1 = k
    · rw [if_pos h]
      have h2 := hd p hp
      cases p with
      | mk a b => simp at h h2 ⊢; rw [← h, h2]; exact ⟨rfl, rfl⟩
    · rw [if_neg h]
  rw [List.map_congr_left this]
  exact List.map_id' d

theorem dictInsert_notMem (d : List (String × Val)) (k : String) (v : Val)
    (hk : ¬ k ∈ d.map Prod.fst) : dictInsert d k v = d ++ [(k, v)] := by
  rw [dictInsert, if_neg]
  intro h
  exact hk ((hasKeyB_iff k d).1 h)

theorem firstDedupFrom_congr :
    ∀ (l : List String) (s1 s2 : List String), (∀ x, x ∈ s1 ↔ x ∈ s2) →
    firstDedupFrom s1 l = firstDedupFrom s2 l := by
  intro l
  induction l with
  | nil => intro s1 s2 _; rfl
  | cons v t ih =>
    intro s1 s2 hs
    rw [firstDedupFrom, firstDedupFrom]
    by_cases hv : v ∈ s1
    · rw [if_pos hv, if_pos ((hs v).1 hv)]
      exact ih s1 s2 hs
    · rw [if_neg hv, if_neg (fun h => hv ((hs v).2 h))]
      congr 1
      refine ih _ _ ?_
      intro x
      simp only [List.mem_cons]
      exact or_congr Iff.rfl (hs x)

theorem foldl_dictInsert_pure (F : String → Val) :
    ∀ (l : List String) (acc : List (String × Val)), (∀ p ∈ acc, p.2 = F p.1) →
    List.foldl (fun d p => dictInsert d p.1 p.2) acc (l.map (fun v => (v, F v)))
      = acc ++ (firstDedupFrom (acc.map Prod.fst) l).map (fun v => (v, F v)) := by
  intro l
  induction l with
  | nil => intro acc _; simp [firstDedupFrom]
  | cons v t ih =>
    intro acc hacc
    rw [List.map_cons, List.foldl_cons, firstDedupFrom]
    by_cases hv : v ∈ acc.map Prod.fst
    · rw [dictInsert_mem F acc v hacc hv, if_pos hv]
      exact ih acc hacc
    · rw [dictInsert_notMem acc v (F v) hv, if_neg hv]
      have hacc2 : ∀ p ∈ acc ++ [(v, F v)], p.2 = F p.1 := by
        intro p hp
        rcases List.mem_append.1 hp with h | h
        · exact hacc p h
        · simp at h; rw [h]
      rw [ih (acc ++ [(v, F v)]) hacc2]
      have hseen : ∀ x, x ∈ (acc ++ [(v, F v)]).map Prod.fst ↔ x ∈ v :: acc.map Prod.fst := by
        intro x
        simp [or_comm]
      rw [firstDedupFrom_congr t _ _ hseen]
      simp [strAppend_assoc]

theorem dictOfPairs_map_pure (F : String → Val) (l : List String) :
    dictOfPairs (l.map (fun v => (v, F v))) = (firstDedup l).map (fun v => (v, F v)) := by
  rw [dictOfPairs, foldl_dictInsert_pure F l [] (by intro p hp; cases hp)]
  rfl

theorem run_tool_async_ok (reg : String → Resolved) (v : String) (p : String × Val)
    (h : run_tool_async reg v = .ok p) : p = (v, okPart reg v) := by
  have hfst : p.1 = v := by
    rw [run_tool_async, run_tool_asyncC] at h
    rcases hr : reg v with _ | m | pth | c <;> rw [hr] at h
    · cases h; rfl
    · cases h; rfl
    · cases h; rfl
    · simp only at h
      rcases hc : (callToolCallableC c).1 with e | r <;> rw [hc] at h
      · cases h
      · simp only at h
        rcases hcl : classify_blocked_response r with e | cr <;> rw [hcl] at h
        · cases h
        · simp only at h
          cases h; rfl
  have hsnd : okPart reg v = p.2 := by
    rw [okPart, h]
  cases p with
  | mk a b => simp at hfst hsnd; rw [hfst, hsnd]

theorem gatherE_run_tool (reg : String → Resolved) :
    ∀ l : List String,
    gatherE (l.map (run_tool_async reg)) =
      match firstErr reg l with
      | some e => .error e
      | Option.none => .ok (l.map (fun v => (v, okPart reg v))) := by
  intro l
  induction l with
  | nil => rfl
  | cons v t ih =>
    rw [List.map_cons, firstErr]
    rcases hv : run_tool_async reg v with e | p
    · rw [gatherE]
    · rw [gatherE, ih]
      rcases ht : firstErr reg t with _ | e
      · simp only []
        rw [run_tool_async_ok reg v p hv, List.map_cons]
      · simp only []

theorem raw_results_char (reg : String → Resolved) (l : List String) :
    raw_results_of reg l =
      match firstErr reg l with
      | Option.none => (firstDedup l).map (fun v => (v, okPart reg v))
      | some e => (firstDedup l).map (fun v => (v, failDict e)) := by
  rw [raw_results_of, run_all_tools, gatherE_run_tool reg l]
  rcases h : firstErr reg l with _ | e
  · simp only []
    rw [dictOfPairs_map_pure (fun v => okPart reg v) l]
  · simp only []
    rw [dictOfPairs_map_pure (fun _ => failDict e) l]

theorem scan_findings_char (reg : String → Resolved) (l : List String) :
    scan_findings reg l =
      match firstErr reg l with
      | Option.none => (firstDedup l).map (fun v => normalize_one v (okPart reg v))
      | some e => (firstDedup l).map (fun v => normalize_one v (failDict e)) := by
  rw [scan_findings, raw_results_char reg l]
  rcases h : firstErr reg l with _ | e <;>
    simp only [normalize_results, List.map_map] <;> rfl

/-! ### Helper lemmas: deduplication, finding lookup, first fault -/

theorem firstDedupFrom_mem (x : String) :
    ∀ (l s : List String), x ∈ firstDedupFrom s l ↔ x ∈ l ∧ ¬ x ∈ s := by
  intro l
  induction l with
  | nil => intro s; simp [firstDedupFrom]
  | cons v t ih =>
    intro s
    rw [firstDedupFrom]
    by_cases hv : v ∈ s
    · rw [if_pos hv, ih]
      simp only [List.mem_cons]
      constructor
      · rintro ⟨h1, h2⟩; exact ⟨Or.inr h1, h2⟩
      · rintro ⟨h1 | h1, h2⟩
        · cases h2 (h1 ▸ hv)
        · exact ⟨h1, h2⟩
    · rw [if_neg hv]
      constructor
      · intro hmem
        rcases List.mem_cons.1 hmem with h | h
        · exact ⟨h ▸ List.mem_cons_self v t, h ▸ hv⟩
        · obtain ⟨h1, h2⟩ := (ih (v :: s)).1 h
          exact ⟨List.mem_cons_of_mem v h1, fun hx => h2 (List.mem_cons_of_mem v hx)⟩
      · rintro ⟨h1, h2⟩
        by_cases hxv : x = v
        · exact List.mem_cons.2 (Or.inl hxv)
        · have hxt : x ∈ t := by
            rcases List.mem_cons.1 h1 with h | h
            · cases hxv h
            · exact h
          refine List.mem_cons_of_mem v ((ih (v :: s)).2 ⟨hxt, ?_⟩)
          intro hx
          rcases List.mem_cons.1 hx with h | h
          · exact hxv h
          · exact h2 h

theorem firstDedup_mem (x : String) (l : List String) :
    x ∈ firstDedup l ↔ x ∈ l := by
  rw [firstDedup, firstDedupFrom_mem]
  simp

theorem firstDedupFrom_nodup : ∀ (l s : List String), (firstDedupFrom s l).Nodup := by
  intro l
  induction l with
  | nil => intro s; simp [firstDedupFrom]
  | cons v t ih =>
    intro s
    rw [firstDedupFrom]
    by_cases hv : v ∈ s
    · rw [if_pos hv]; exact ih s
    · rw [if_neg hv]
      refine List.Nodup.cons ?_ (ih (v :: s))
      intro hmem
      exact ((firstDedupFrom_mem v t (v :: s)).1 hmem).2 (List.mem_cons_self v s)

theorem firstDedup_nodup (l : List String) : (firstDedup l).Nodup :=
  firstDedupFrom_nodup l []

theorem firstDedupFrom_of_nodup :
    ∀ (l s : List String), l.Nodup → (∀ x ∈ l, ¬ x ∈ s) → firstDedupFrom s l = l := by
  intro l
  induction l with
  | nil => intro s _ _; rfl
  | cons v t ih =>
    intro s hnd hs
    rw [firstDedupFrom, if_neg (hs v (List.mem_cons_self v t))]
    congr 1
    refine ih (v :: s) (List.Nodup.of_cons hnd) ?_
    intro x hx
    intro hmem
    rcases List.mem_cons.1 hmem with h | h
    · rw [h] at hx
      exact (List.nodup_cons.1 hnd).1 hx
    · exact hs x (List.mem_cons_of_mem v hx) h

theorem firstDedup_of_nodup (l : List String) (h : l.Nodup) : firstDedup l = l :=
  firstDedupFrom_of_nodup l [] h (by intro x _ hx; cases hx)

theorem findingFor_map (F : String → Val)
    (hid : ∀ v d, fgetStr (normalize_one v d) "id" = some v) :
    ∀ (ds : List String) (w : String), w ∈ ds →
    findingFor (ds.map (fun v => normalize_one v (F v))) w
      = some (normalize_one w (F w)) := by
  intro ds
  induction ds with
  | nil => intro w hw; cases hw
  | cons v t ih =>
    intro w hw
    rw [List.map_cons, findingFor, List.find?]
    by_cases hvw : v = w
    · rw [show (decide (fgetStr (normalize_one v (F v)) "id" = some w)) = true by
        simp [hid, hvw]]
      rw [hvw]
    · rw [show (decide (fgetStr (normalize_one v (F v)) "id" = some w)) = false by
        simp [hid]
        intro h
        exact hvw h]
      have hwt : w ∈ t := by
        rcases List.mem_cons.1 hw with h | h
        · cases hvw h.symm
        · exact h
      exact ih w hwt

theorem firstErr_erase (reg : String → Resolved) (v : String) (p : String × Val)
    (hok : run_tool_async reg v = .ok p) :
    ∀ l : List String, firstErr reg (l.erase v) = firstErr reg l := by
  intro l
  induction l with
  | nil => rfl
  | cons a t ih =>
    rw [List.erase_cons]
    by_cases hav : a = v
    · rw [if_pos (by simp [hav]), hav, firstErr, hok]
    · rw [if_neg (by simp [hav]), firstErr, firstErr]
      rcases ha : run_tool_async reg a with e | q
      · rfl
      · exact ih

theorem firstErr_of_mem_error (reg : String → Resolved) (v : String) (e : PyErr)
    (he : run_tool_async reg v = .error e) :
    ∀ l : List String, v ∈ l → ∃ e2, firstErr reg l = some e2 := by
  intro l
  induction l with
  | nil => intro h; cases h
  | cons a t ih =>
    intro hmem
    rw [firstErr]
    rcases ha : run_tool_async reg a with e3 | q
    · exact ⟨e3, rfl⟩
    · rcases List.mem_cons.1 hmem with h | h
      · rw [← h, he] at ha; cases ha
      · exact ih h

/-! ### Helper lemmas: fields of a normalized finding -/

theorem normalize_one_id (v : String) (d : Val) :
    fgetStr (normalize_one v d) "id" = some v := by
  cases d <;> simp only [normalize_one] <;>
    first
    | rfl
    | (split <;> rfl)

theorem normalize_one_status (v : String) (d : Val) :
    fgetStr (normalize_one v d) "status" = some (statusFor d) := by
  cases d <;> simp only [normalize_one] <;>
    first
    | rfl
    | (split <;> rfl)

theorem normalize_one_details (v : String) (d : Val) :
    fget (normalize_one v d) "details" = d := by
  cases d <;> simp only [normalize_one] <;>
    first
    | rfl
    | (split <;> rfl)

theorem normalize_one_failDict_severity (v : String) (e : PyErr) :
    fgetStr (normalize_one v (failDict e)) "severity" = some "Unknown" := rfl

theorem normalize_one_failDict_status (v : String) (e : PyErr) :
    fgetStr (normalize_one v (failDict e)) "status" = some "error" := by
  rw [normalize_one_status]
  rw [show statusFor (failDict e) = "error" from
    statusFor_error_dict _ rfl]

theorem normalize_one_notFound_status (v : String) :
    fgetStr (normalize_one v (notFoundDict v)) "status" = some "error" := by
  rw [normalize_one_status]
  rw [show statusFor (notFoundDict v) = "error" from
    statusFor_error_dict _ rfl]

/-! ### Risk aggregation: claim-side characterizations -/

/-- Is the entry a dict whose severity lookup yields a string?  (Exactly the
inputs on which server.py:455 does not raise.) -/
def sevIsStrB (r : Val) : Bool :=
  match r with
  | .dict d =>
    match getD d "severity" (.str "") with
    | .str _ => true
    | _ => false
  | _ => false

/-- Does the finding count towards high_count (severity case-insensitively
critical or high)? -/
def isHighB (r : Val) : Bool :=
  match r with
  | .dict d =>
    match getD d "severity" (.str "") with
    | .str s => pyLower s = "critical" || pyLower s = "high"
    | _ => false
  | _ => false

/-- The number of findings whose severity is case-insensitively critical or high. -/
def countHigh (rs : List Val) : Nat := (rs.filter isHighB).length

/-- The risk level determined by high_count (server.py:457-462). -/
def levelOf (hc : Nat) : String :=
  if hc ≥ 3 then "High" else if hc = 0 then "Low" else "Medium"

/-- The severity projection of a finding entry: what server.py:455 reads. -/
def sevProj (r : Val) : Option Val :=
  match r with
  | .dict d => some (getD d "severity" (.str ""))
  | _ => Option.none

theorem sevLowerE_of_str (r : Val) (h : sevIsStrB r = true) :
    ∃ s, getD (match r with | .dict d => d | _ => []) "severity" (.str "") = .str s ∧
      sevLowerE r = .ok (pyLower s) := by
  cases r <;> simp [sevIsStrB] at h
  case dict d =>
    rcases hs : getD d "severity" (.str "") with s | n | l | d2 | _ <;>
      rw [hs] at h <;> try cases h
    exact ⟨s, rfl, by rw [sevLowerE, hs]⟩

theorem sevLowerE_of_bad (r : Val) (h : sevIsStrB r = false) :
    sevLowerE r = .error () := by
  cases r <;> try rfl
  case dict d =>
    rw [sevIsStrB] at h
    rw [sevLowerE]
    rcases hs : getD d "severity" (.str "") with s | n | l | d2 | _
    · rw [hs] at h; simp at h
    · rfl
    · rfl
    · rfl
    · rfl

theorem highCountE_ok (rs : List Val) (h : rs.all sevIsStrB = true) :
    highCountE rs = .ok (countHigh rs) := by
  induction rs with
  | nil => rfl
  | cons r t ih =>
    rw [List.all_cons, Bool.and_eq_true] at h
    obtain ⟨s, hs, hlow⟩ := sevLowerE_of_str r h.1
    rw [highCountE, hlow, ih h.2]
    have hcount : countHigh (r :: t)
        = (if isHighB r then 1 else 0) + countHigh t := by
      rw [countHigh, countHigh, List.filter_cons]
      by_cases hh : isHighB r
      · rw [if_pos hh, if_pos hh, List.length_cons]; omega
      · rw [if_neg hh, if_neg hh]; omega
    rw [hcount]
    have hr : isHighB r = (pyLower s = "critical" || pyLower s = "high") := by
      cases r <;> simp [sevIsStrB] at h hs ⊢
      case dict d =>
        rw [isHighB, show getD d "severity" (.str "") = .str s from hs]
    by_cases h1 : pyLower s = "critical"
    · simp [hr, h1]
    · by_cases h2 : pyLower s = "high"
      · simp [hr, h1, h2]
      · simp [hr, h1, h2]

theorem highCountE_error (rs : List Val) (h : rs.any (fun r => !(sevIsStrB r)) = true) :
    highCountE rs = .error () := by
  induction rs with
  | nil => cases h
  | cons r t ih =>
    rw [List.any_cons, Bool.or_eq_true] at h
    by_cases hr : sevIsStrB r
    · obtain ⟨s, _, hlow⟩ := sevLowerE_of_str r hr
      have ht : t.any (fun r => !(sevIsStrB r)) = true := by
        rcases h with h | h
        · rw [hr] at h; cases h
        · exact h
      rw [highCountE, hlow, ih ht]
    · rw [highCountE, sevLowerE_of_bad r (Bool.eq_false_iff.2 hr)]

/-- C3: on findings whose severities are strings (as normalized findings'
severities are), the aggregation counts case-insensitive critical/high
severities, caps the score at 100, and buckets the level by the count. -/
theorem C3_risk_formula (rs : List Val) (h : rs.all sevIsStrB = true) :
    riskOf rs = (min 100 (countHigh rs * 10), levelOf (countHigh rs)) := by
  rw [riskOf, highCountE_ok rs h, levelOf]

/-- Witness for C3: severities High, High, Critical, Low give score 30 and
level High; severities Low, Medium give score 0 and level Low. -/
theorem C3_risk_formula_witness :
    riskOf [.dict [("severity", .str "High")], .dict [("severity", .str "High")],
            .dict [("severity", .str "Critical")], .dict [("severity", .str "Low")]]
      = (30, "High") ∧
    riskOf [.dict [("severity", .str "Low")], .dict [("severity", .str "Medium")]]
      = (0, "Low") := by
  constructor
  · rw [C3_risk_formula _ (by rfl)]; rfl
  · rw [C3_risk_formula _ (by rfl)]; rfl

/-- C7 (amended): the aggregation is total, but not element-local: if every
entry has a string severity (a missing severity reads as "" and is not
counted), the usual formula applies; if any entry has a non-string severity,
the exception handler discards the whole findings list and yields
score 0, level "Unknown". -/
theorem C7_risk_totality (rs : List Val) :
    riskOf rs =
      if rs.any (fun r => !(sevIsStrB r)) then (0, "Unknown")
      else (min 100 (countHigh rs * 10), levelOf (countHigh rs)) := by
  by_cases h : rs.any (fun r => !(sevIsStrB r))
  · rw [if_pos h, riskOf, highCountE_error rs h]
  · rw [if_neg h]
    have hall : rs.all sevIsStrB = true := by
      rw [List.all_eq_true]
      intro r hr
      by_contra hbad
      exact h (List.any_eq_true.2 ⟨r, hr, by
        rw [Bool.not_eq_true] at hbad
        rw [hbad]; rfl⟩)
    exact C3_risk_formula rs hall

/-- Witness for C7 (amended): a list with a non-string severity falls to
(0, Unknown); the same list with the bad entry removed follows the formula. -/
theorem C7_risk_totality_witness :
    riskOf [.dict [("severity", .nat 5)], .dict [("severity", .str "High")]]
      = (0, "Unknown") ∧
    riskOf [.dict [("severity", .str "High")]] = (10, "Medium") := by
  constructor
  · rw [C7_risk_totality]; rfl
  · rw [C7_risk_totality]; rfl

/-- Counterexample to C7 as stated: with findings of severities 5 (non-string)
and "High", the claim predicts the bad entry contributes 0 and the rest are
counted normally, i.e. (10, "Medium"); the code yields (0, "Unknown") for the
whole list. -/
theorem C7_counterexample :
    riskOf [.dict [("severity", .nat 5)], .dict [("severity", .str "High")]]
      = (0, "Unknown") ∧
    riskOf [.dict [("severity", .nat 5)], .dict [("severity", .str "High")]]
      ≠ (10, "Medium") := by
  constructor
  · rfl
  · intro h
    cases h

theorem sevLowerE_proj (r1 r2 : Val) (h : sevProj r1 = sevProj r2) :
    sevLowerE r1 = sevLowerE r2 := by
  cases r1 <;> cases r2 <;> simp_all [sevProj, sevLowerE]

theorem highCountE_congr : ∀ (rs1 rs2 : List Val),
    rs1.map sevProj = rs2.map sevProj → highCountE rs1 = highCountE rs2 := by
  intro rs1
  induction rs1 with
  | nil =>
    intro rs2 h
    cases rs2 with
    | nil => rfl
    | cons r t => cases h
  | cons r t ih =>
    intro rs2 h
    cases rs2 with
    | nil => cases h
    | cons r2 t2 =>
      rw [List.map_cons, List.map_cons] at h
      injection h with h1 h2
      rw [highCountE, highCountE, sevLowerE_proj r r2 h1, ih t2 h2]

/-- C8: the aggregation is deterministic and idempotent, and (score, level)
is a function of the findings' severity projections alone. -/
theorem C8_aggregate_deterministic :
    (∀ rs : List Val, riskOf rs = riskOf rs) ∧
    (∀ rs1 rs2 : List Val, rs1.map sevProj = rs2.map sevProj →
      riskOf rs1 = riskOf rs2) := by
  constructor
  · intro rs; rfl
  · intro rs1 rs2 h
    rw [riskOf, riskOf, highCountE_congr rs1 rs2 h]

/-- Witness for C8: two findings lists with equal severity projections (one
with an extra unrelated field) aggregate identically. -/
theorem C8_aggregate_deterministic_witness :
    riskOf [.dict [("severity", .str "High"), ("note", .str "x")]]
      = riskOf [.dict [("severity", .str "High")]] :=
  C8_aggregate_deterministic.2 _ _ rfl

/-! ### The invoker: calling conventions (C9) -/

/-- Does the capability body avoid raising TypeError?  (When the body itself
raises TypeError it is indistinguishable, to the except clauses of
server.py:130-133, from a signature mismatch.) -/
def notTypeErrB (e : Except PyErr Val) : Bool :=
  match e with
  | .error (.typeError _) => false
  | _ => true

/-- C9 (amended): when the capability's own action never raises TypeError,
the invoker returns the action's outcome under the first accepted calling
convention in the order url, url+timeout, target=url, and the action runs
exactly once (zero times when no convention is accepted).  In general a
TypeError raised by the action itself also triggers the fallback, so the
action can run more than once (see the counterexample). -/
theorem C9_invoker_convention (c : Capability) (h : notTypeErrB c.body = true) :
    callToolCallableC c =
      ((if c.acceptsUrl then c.body
        else if c.acceptsUrlTimeout then c.body
        else if c.acceptsTarget then c.body
        else .error (.typeError "unexpected arguments")),
       (if c.acceptsUrl || c.acceptsUrlTimeout || c.acceptsTarget then 1 else 0)) := by
  obtain ⟨a1, a2, a3, b⟩ := c
  rcases b with e | v
  · rcases e with m | m
    · simp [notTypeErrB] at h
    · cases a1 <;> cases a2 <;> cases a3 <;> rfl
  · cases a1 <;> cases a2 <;> cases a3 <;> rfl

/-- Witness for C9: a capability accepting only the url+timeout convention is
invoked through it, and its action runs exactly once. -/
theorem C9_invoker_convention_witness :
    callToolCallableC ⟨false, true, false, .ok (.dict [])⟩ = (.ok (.dict []), 1) := by
  rw [C9_invoker_convention ⟨false, true, false, .ok (.dict [])⟩ rfl]
  rfl

/-- Counterexample to C9 as stated: a capability that accepts both the
target-only and the target+timeout conventions but whose action raises
TypeError runs its action twice in one invocation — the fallback fires on a
body TypeError, not only on a convention the capability does not accept. -/
theorem C9_counterexample :
    (callToolCallableC ⟨true, true, false, .error (.typeError "boom")⟩).2 = 2 ∧
    ¬ ((callToolCallableC ⟨true, true, false, .error (.typeError "boom")⟩).2 ≤ 1) := by
  exact ⟨rfl, by decide⟩

/-! ### The blocked-response classifier (C4) -/

/-- server.py:140 — the status the classifier extracts. -/
def statusOfD (d : List (String × Val)) : Val :=
  pyOr (getD d "status_code" .none) (getD d "response_status_code" .none)

/-- server.py:141 — the text excerpt the classifier extracts. -/
def snippetOfD (d : List (String × Val)) : Val :=
  pyOr (getD d "text_snippet" (.str "")) (getD d "body_snippet" (.str ""))

/-- Is the extracted excerpt a string (the well-formed case; the fields are
short body excerpts)? -/
def snippetIsStrB (d : List (String × Val)) : Bool :=
  match snippetOfD d with
  | .str _ => true
  | _ => false

/-- The extracted excerpt as a string. -/
def snippetStr (d : List (String × Val)) : String :=
  match snippetOfD d with
  | .str s => s
  | _ => ""

/-- The status-code trigger reasons of the classifier. -/
def httpReasons (d : List (String × Val)) : List String :=
  if valEqNat (statusOfD d) 403 || valEqNat (statusOfD d) 429
  then ["HTTP " ++ pyStr (statusOfD d)] else []

/-- The keyword trigger reasons: every keyword occurring case-insensitively
in the excerpt, in the fixed keyword order. -/
def keywordReasons (d : List (String × Val)) : List String :=
  blockedKeywords.filter (fun k => strContainsB (pyLower (snippetStr d)) k)

/-- All trigger reasons, status signal first, keyword signals after. -/
def blockedReasonsSpec (d : List (String × Val)) : List String :=
  httpReasons d ++ keywordReasons d

/-- Is the value a dict? -/
def isDictB : Val → Bool
  | .dict _ => true
  | _ => false

theorem classify_char (d : List (String × Val)) (h : snippetIsStrB d = true) :
    classify_blocked_response (.dict d) =
      .ok (if blockedReasonsSpec d = [] then .dict d
           else blockedPayload (blockedReasonsSpec d) (getD d "_meta" (.dict []))) := by
  rw [classify_blocked_response]
  simp only []
  rw [show pyOr (getD d "text_snippet" (.str "")) (getD d "body_snippet" (.str ""))
      = snippetOfD d from rfl]
  rw [show pyOr (getD d "status_code" .none) (getD d "response_status_code" .none)
      = statusOfD d from rfl]
  rw [snippetIsStrB] at h
  rcases hsnip : snippetOfD d with s | n | l | dd | _ <;> rw [hsnip] at h <;> try cases h
  have hhttp : (if valEqNat (statusOfD d) 403 || valEqNat (statusOfD d) 429
      then ["HTTP " ++ pyStr (statusOfD d)] else []) = httpReasons d := rfl
  rw [hhttp]
  have hstr : snippetStr d = s := by rw [snippetStr, hsnip]
  by_cases ht : pyTruthy (.str s)
  · rw [if_pos ht]
    simp only []
    rw [show blockedKeywords.filter (fun k => strContainsB (pyLower s) k)
        = keywordReasons d from by rw [keywordReasons, hstr]]
    rw [show httpReasons d ++ keywordReasons d = blockedReasonsSpec d from rfl]
    by_cases hbr : blockedReasonsSpec d = [] <;> simp [hbr]
  · rw [if_neg ht]
    have hs0 : s = "" := by
      rw [pyTruthy] at ht
      simpa using ht
    have hkw : keywordReasons d = [] := by
      rw [keywordReasons, hstr, hs0]
      rfl
    rw [show blockedReasonsSpec d = httpReasons d from by
      rw [blockedReasonsSpec, hkw, List.append_nil]]
    by_cases hbr : httpReasons d = [] <;> simp [hbr]

/-- C4: on a dict result (with its excerpt fields holding text), every
trigger reason is evaluated and recorded independently — the HTTP 403/429
signal contributes "HTTP status", and each keyword of the fixed set found
case-insensitively in the excerpt contributes itself; any fired reason
replaces the result by the standardized blocked payload (severity Unknown,
fixed description and remediation, empty references, original _meta, full
reasons list), otherwise — and on every non-dict input — the result passes
through unchanged; status 403 with a body containing "captcha" yields
exactly ["HTTP 403", "captcha"]. -/
theorem C4_classifier_reasons :
    (∀ d : List (String × Val), snippetIsStrB d = true →
      classify_blocked_response (.dict d) =
        .ok (if blockedReasonsSpec d = [] then .dict d
             else blockedPayload (blockedReasonsSpec d) (getD d "_meta" (.dict [])))) ∧
    (∀ v : Val, isDictB v = false → classify_blocked_response v = .ok v) ∧
    classify_blocked_response
        (.dict [("status_code", .nat 403),
                ("text_snippet", .str "please solve the captcha")])
      = .ok (blockedPayload ["HTTP 403", "captcha"] (.dict [])) := by
  refine ⟨classify_char, ?_, ?_⟩
  · intro v hv
    cases v <;> first | rfl | (cases hv)
  · rfl

/-- Witness for C4: the 403+captcha example, derived through the general
characterization. -/
theorem C4_classifier_reasons_witness :
    classify_blocked_response
        (.dict [("status_code", .nat 403),
                ("text_snippet", .str "please solve the captcha")])
      = .ok (blockedPayload ["HTTP 403", "captcha"] (.dict [])) := by
  rw [C4_classifier_reasons.1
    [("status_code", .nat 403), ("text_snippet", .str "please solve the captcha")] rfl]
  rfl

/-! ### The result normalizer (C5) -/

/-- C5 (amended): defaults and overrides of the normalizer depend on the
outcome discriminator.  For a success payload (a dict without an "error"
key), name derives from the probe id unless supplied, and severity,
description, fix and references take their placeholder defaults, each
overridden by whatever the result supplies.  For a failure payload (a dict
with an "error" key), only severity, description and fix are overridable:
severity defaults to "Unknown", description defaults to the error message
(not the placeholder), fix defaults to "Check backend service" (not the
placeholder), and name and references always take the derived/default
values.  A non-dict result takes every default. -/
theorem C5_normalizer_defaults :
    (∀ (v : String) (d : List (String × Val)), hasKeyB d "error" = false →
      fget (normalize_one v (.dict d)) "name" = getD d "name" (.str (defaultName v)) ∧
      fget (normalize_one v (.dict d)) "severity" = getD d "severity" (.str "Unknown") ∧
      fget (normalize_one v (.dict d)) "description"
        = getD d "description" (.str "No description provided.") ∧
      fget (normalize_one v (.dict d)) "fix"
        = getD d "fix" (.str "No fix recommendation available.") ∧
      fget (normalize_one v (.dict d)) "references"
        = getD d "references" (defaultRefs v)) ∧
    (∀ (v : String) (d : List (String × Val)), hasKeyB d "error" = true →
      fget (normalize_one v (.dict d)) "name" = .str (defaultName v) ∧
      fget (normalize_one v (.dict d)) "severity" = getD d "severity" (.str "Unknown") ∧
      fget (normalize_one v (.dict d)) "description"
        = getD d "description" (getD d "error" .none) ∧
      fget (normalize_one v (.dict d)) "fix" = getD d "fix" (.str "Check backend service") ∧
      fget (normalize_one v (.dict d)) "references" = defaultRefs v) ∧
    (∀ (v : String) (x : Val), isDictB x = false →
      fget (normalize_one v x) "name" = .str (defaultName v) ∧
      fget (normalize_one v x) "severity" = .str "Unknown" ∧
      fget (normalize_one v x) "description" = .str "No description provided." ∧
      fget (normalize_one v x) "fix" = .str "No fix recommendation available." ∧
      fget (normalize_one v x) "references" = defaultRefs v) := by
  refine ⟨?_, ?_, ?_⟩
  · intro v d h
    rw [normalize_one]
    rw [if_neg (by rw [h]; exact Bool.false_ne_true)]
    exact ⟨rfl, rfl, rfl, rfl, rfl⟩
  · intro v d h
    rw [normalize_one]
    rw [if_pos h]
    exact ⟨rfl, rfl, rfl, rfl, rfl⟩
  · intro v x hx
    cases x <;> first
      | exact ⟨rfl, rfl, rfl, rfl, rfl⟩
      | cases hx

/-- Witness for C5 (amended): a success payload supplying only a severity
keeps the derived name and the other placeholders while its severity is
taken. -/
theorem C5_normalizer_defaults_witness :
    fget (normalize_one "xss" (.dict [("severity", .str "High")])) "name"
      = getD [("severity", .str "High")] "name" (.str (defaultName "xss")) ∧
    fget (normalize_one "xss" (.dict [("severity", .str "High")])) "severity"
      = getD [("severity", .str "High")] "severity" (.str "Unknown") :=
  ⟨(C5_normalizer_defaults.1 "xss" [("severity", .str "High")] rfl).1,
   (C5_normalizer_defaults.1 "xss" [("severity", .str "High")] rfl).2.1⟩

/-- Counterexample to C5 as stated: on the failure payload
with error "boom", a supplied name "Custom" and supplied references ["r1"],
the normalizer ignores the supplied name and references, defaults fix to
"Check backend service" rather than the placeholder, and defaults the
description to the error message rather than the placeholder. -/
theorem C5_counterexample :
    fgetStr (normalize_one "xss"
      (.dict [("error", .str "boom"), ("name", .str "Custom"),
              ("references", .list [.str "r1"])])) "name" = some "Xss" ∧
    fgetStr (normalize_one "xss"
      (.dict [("error", .str "boom"), ("name", .str "Custom"),
              ("references", .list [.str "r1"])])) "name" ≠ some "Custom" ∧
    fgetStr (normalize_one "xss"
      (.dict [("error", .str "boom"), ("name", .str "Custom"),
              ("references", .list [.str "r1"])])) "fix" = some "Check backend service" ∧
    fgetStr (normalize_one "xss"
      (.dict [("error", .str "boom"), ("name", .str "Custom"),
              ("references", .list [.str "r1"])])) "fix"
      ≠ some "No fix recommendation available." ∧
    fgetStr (normalize_one "xss"
      (.dict [("error", .str "boom"), ("name", .str "Custom"),
              ("references", .list [.str "r1"])])) "description" = some "boom" ∧
    fget (normalize_one "xss"
      (.dict [("error", .str "boom"), ("name", .str "Custom"),
              ("references", .list [.str "r1"])])) "references" = defaultRefs "xss" := by
  refine ⟨rfl, by decide, rfl, by decide, rfl, rfl⟩

/-! ### Blocked findings versus failures (C6) -/

/-- Does the value, as a dict, carry the given key? -/
def fhasKey (v : Val) (k : String) : Bool :=
  match v with
  | .dict d => hasKeyB d k
  | _ => false

/-- C6 (amended): a result the classifier replaces with a blocked payload
normalizes to a finding with status "error" and severity "Unknown" — the
same status as a probe-failure finding, hence not distinct from failure by
status; it is distinct from a success finding (status is not "ok"), and it
is distinguishable from a plain failure only by its details, which retain
the blocked_reasons list. -/
theorem C6_blocked_normalization (v : String) (d : List (String × Val))
    (hs : snippetIsStrB d = true) (hb : blockedReasonsSpec d ≠ []) :
    ∃ cr, classify_blocked_response (.dict d) = .ok cr ∧
      fgetStr (normalize_one v cr) "status" = some "error" ∧
      fgetStr (normalize_one v cr) "status" ≠ some "ok" ∧
      fgetStr (normalize_one v cr) "severity" = some "Unknown" ∧
      fhasKey (fget (normalize_one v cr) "details") "blocked_reasons" = true := by
  refine ⟨blockedPayload (blockedReasonsSpec d) (getD d "_meta" (.dict [])), ?_, ?_, ?_, ?_, ?_⟩
  · rw [classify_char d hs, if_neg hb]
  · rw [normalize_one_status]
    rw [show statusFor (blockedPayload (blockedReasonsSpec d) (getD d "_meta" (.dict [])))
        = "error" from statusFor_error_dict _ rfl]
  · rw [normalize_one_status]
    rw [show statusFor (blockedPayload (blockedReasonsSpec d) (getD d "_meta" (.dict [])))
        = "error" from statusFor_error_dict _ rfl]
    decide
  · rfl
  · rw [normalize_one_details]
    rfl

/-- Witness for C6 (amended): a 403 response is classified as blocked, and
its normalized finding has status "error", severity "Unknown", and
blocked_reasons in its details. -/
theorem C6_blocked_normalization_witness :
    ∃ cr, classify_blocked_response (.dict [("status_code", .nat 403)]) = .ok cr ∧
      fgetStr (normalize_one "clickjacking" cr) "status" = some "error" ∧
      fgetStr (normalize_one "clickjacking" cr) "status" ≠ some "ok" ∧
      fgetStr (normalize_one "clickjacking" cr) "severity" = some "Unknown" ∧
      fhasKey (fget (normalize_one "clickjacking" cr) "details") "blocked_reasons" = true :=
  C6_blocked_normalization "clickjacking" [("status_code", .nat 403)] rfl (by decide)

/-- Counterexample to C6 as stated: a blocked 403 result normalizes to a
finding whose status is "error" — exactly the status of a probe-failure
finding — so the blocked finding is not distinct from a failure finding by
status. -/
theorem C6_counterexample :
    classify_blocked_response (.dict [("status_code", .nat 403)])
      = .ok (blockedPayload ["HTTP 403"] (.dict [])) ∧
    fgetStr (normalize_one "xss" (blockedPayload ["HTTP 403"] (.dict []))) "status"
      = some "error" ∧
    fgetStr (normalize_one "cors" (failDict (.other "boom"))) "status" = some "error" := by
  exact ⟨rfl, rfl, rfl⟩

/-! ### The dispatcher pipeline (C1, C2, C10) -/

theorem findingFor_map_none (F : String → Val) :
    ∀ (ds : List String) (w : String), ¬ w ∈ ds →
    findingFor (ds.map (fun v => normalize_one v (F v))) w = Option.none := by
  intro ds
  induction ds with
  | nil => intro w _; rfl
  | cons v t ih =>
    intro w hw
    rw [List.map_cons, findingFor, List.find?]
    rw [show decide (fgetStr (normalize_one v (F v)) "id" = some w) = false by
      simp [normalize_one_id]
      intro hvv
      exact hw (List.mem_cons.2 (Or.inl hvv.symm))]
    exact ih w (fun h => hw (List.mem_cons_of_mem v h))

theorem scan_findings_ids (reg : String → Resolved) (vulns : List String) :
    (scan_findings reg vulns).map (fun f => fgetStr f "id")
      = (firstDedup vulns).map some := by
  rw [scan_findings_char]
  rcases h : firstErr reg vulns with _ | e <;> simp only [] <;>
  · rw [List.map_map]
    refine List.map_congr_left ?_
    intro v _
    simp only [Function.comp_apply]
    exact normalize_one_id v _

theorem contains_not_found (v : String) :
    strContainsB ("Tool " ++ sq v ++ " not found") "not found" = true := by
  rw [strContainsB]
  have h1 : ("Tool " ++ sq v ++ " not found").data
      = (("Tool " ++ sq v).data ++ [' ']) ++ ("not found").data ++ [] := by
    rw [strData_append]
    rw [show (" not found").data = [' '] ++ ("not found").data from rfl]
    simp [List.append_assoc]
  rw [h1]
  exact subIn_middle _ _ _

/-- C10: duplicate requested ids collapse in the fan-in merge: the findings
carry, in order, exactly the distinct requested ids (first occurrences), so
the number of findings is the number of distinct requested ids, not the
length of the requested list, and no id yields two findings. -/
theorem C10_duplicates_collapse (reg : String → Resolved) (vulns : List String) :
    (scan_findings reg vulns).map (fun f => fgetStr f "id")
      = (firstDedup vulns).map some ∧
    (firstDedup vulns).Nodup ∧
    (∀ x, x ∈ firstDedup vulns ↔ x ∈ vulns) ∧
    (scan_findings reg vulns).length = (firstDedup vulns).length := by
  refine ⟨scan_findings_ids reg vulns, firstDedup_nodup vulns,
    fun x => firstDedup_mem x vulns, ?_⟩
  have h := congrArg List.length (scan_findings_ids reg vulns)
  simpa using h

/-- C2 (amended): every requested id yields exactly one finding, in request
order; an id absent from the registry yields, with zero capability
invocations, the result "Tool '<id>' not found", and — when no sibling
probe's exception escapes the dispatcher — its finding has status "error"
and a "not found" detail; its presence never affects any other requested
probe's finding.  (When a sibling's exception does escape, the absent id's
finding instead carries the batch failure detail "Tool run failed: ...";
see the counterexample.) -/
theorem C2_requested_ids_accounted :
    (∀ (reg : String → Resolved) (vulns : List String), vulns.Nodup →
      (scan_findings reg vulns).map (fun f => fgetStr f "id") = vulns.map some) ∧
    (∀ (reg : String → Resolved) (v : String), reg v = .notFound →
      run_tool_asyncC reg v = (.ok (v, notFoundDict v), 0)) ∧
    (∀ (reg : String → Resolved) (vulns : List String) (v : String),
      reg v = .notFound → v ∈ vulns → firstErr reg vulns = Option.none →
      findingFor (scan_findings reg vulns) v = some (normalize_one v (notFoundDict v)) ∧
      fgetStr (normalize_one v (notFoundDict v)) "status" = some "error" ∧
      fgetStr (fget (normalize_one v (notFoundDict v)) "details") "error"
        = some ("Tool " ++ sq v ++ " not found") ∧
      strContainsB ("Tool " ++ sq v ++ " not found") "not found" = true) ∧
    (∀ (reg : String → Resolved) (vulns : List String) (v w : String),
      reg v = .notFound → w ≠ v →
      findingFor (scan_findings reg vulns) w
        = findingFor (scan_findings reg (vulns.erase v)) w) := by
  refine ⟨?_, ?_, ?_, ?_⟩
  · intro reg vulns hnd
    rw [scan_findings_ids reg vulns, firstDedup_of_nodup vulns hnd]
  · intro reg v hv
    rw [run_tool_asyncC, hv]
  · intro reg vulns v hv hmem hnone
    have hok : run_tool_async reg v = .ok (v, notFoundDict v) := by
      rw [run_tool_async, run_tool_asyncC, hv]
    refine ⟨?_, normalize_one_notFound_status v, ?_, contains_not_found v⟩
    · rw [scan_findings_char, hnone]
      simp only []
      rw [findingFor_map (fun x => okPart reg x) normalize_one_id (firstDedup vulns) v
        ((firstDedup_mem v vulns).2 hmem)]
      rw [show okPart reg v = notFoundDict v from by rw [okPart, hok]]
    · rw [normalize_one_details]
      rfl
  · intro reg vulns v w hv hw
    have hok : run_tool_async reg v = .ok (v, notFoundDict v) := by
      rw [run_tool_async, run_tool_asyncC, hv]
    have herr := firstErr_erase reg v (v, notFoundDict v) hok vulns
    rw [scan_findings_char reg vulns, scan_findings_char reg (vulns.erase v), herr]
    rcases h : firstErr reg vulns with _ | e <;> simp only [] <;>
    · by_cases hmem : w ∈ vulns
      · rw [findingFor_map _ normalize_one_id (firstDedup vulns) w
          ((firstDedup_mem w vulns).2 hmem)]
        rw [findingFor_map _ normalize_one_id (firstDedup (vulns.erase v)) w
          ((firstDedup_mem w (vulns.erase v)).2 ((List.mem_erase_of_ne hw).2 hmem))]
      · rw [findingFor_map_none _ (firstDedup vulns) w
          (fun hx => hmem ((firstDedup_mem w vulns).1 hx))]
        rw [findingFor_map_none _ (firstDedup (vulns.erase v)) w
          (fun hx => hmem (List.mem_of_mem_erase ((firstDedup_mem w (vulns.erase v)).1 hx)))]

/-- A registry carrying one working probe (clickjacking) and nothing else;
ids outside the TOOLS key set resolve to NotFound. -/
def regDemo : String → Resolved := fun v =>
  if v = "clickjacking" then
    .cap ⟨true, false, false, .ok (.dict [("severity", .str "High")])⟩
  else .notFound

/-- Witness for C2 (amended): requesting the absent id "ghost" together with
the working probe "clickjacking" yields the synthesized not-found finding
for "ghost", and the finding of "clickjacking" is the same whether or not
"ghost" is requested. -/
theorem C2_requested_ids_accounted_witness :
    (scan_findings regDemo ["ghost", "clickjacking"]).map (fun f => fgetStr f "id")
      = [some "ghost", some "clickjacking"] ∧
    findingFor (scan_findings regDemo ["ghost", "clickjacking"]) "ghost"
      = some (normalize_one "ghost" (notFoundDict "ghost")) ∧
    findingFor (scan_findings regDemo ["ghost", "clickjacking"]) "clickjacking"
      = findingFor (scan_findings regDemo (["ghost", "clickjacking"].erase "ghost"))
          "clickjacking" := by
  refine ⟨?_, ?_, ?_⟩
  · have h := C2_requested_ids_accounted.1 regDemo ["ghost", "clickjacking"] (by decide)
    rw [h]
    rfl
  · exact (C2_requested_ids_accounted.2.2.1 regDemo ["ghost", "clickjacking"] "ghost"
      rfl (by decide) rfl).1
  · exact C2_requested_ids_accounted.2.2.2 regDemo ["ghost", "clickjacking"] "ghost"
      "clickjacking" rfl (by decide)

/-- A registry with one probe whose capability raises a non-TypeError
exception on every call, besides the working clickjacking probe. -/
def regBoom : String → Resolved := fun v =>
  if v = "alpha" then .cap ⟨true, false, false, .error (.other "boom")⟩
  else if v = "beta" then .cap ⟨true, false, false, .ok (.dict [("severity", .str "High")])⟩
  else .notFound

/-- Counterexample to C2 as stated: when a sibling probe's exception escapes
the dispatcher, the finding synthesized for the absent id "ghost" carries
the batch failure detail "Tool run failed: boom" — its "not found" detail is
lost, contradicting the claim that an absent id always yields a "not found"
detail. -/
theorem C2_counterexample :
    fgetStr (fget ((findingFor (scan_findings regBoom ["ghost", "alpha"]) "ghost").getD
      .none) "details") "error" = some "Tool run failed: boom" ∧
    strContainsB "Tool run failed: boom" "not found" = false := by
  exact ⟨rfl, rfl⟩

/-- C1 (amended): an exception of a probe capability (beyond the TypeErrors
consumed by the calling-convention fallback) escapes the invoker and the
dispatcher to the batch-level handler, which replaces every requested
probe's result with the failure payload "Tool run failed: <msg>"; the final
report still contains, for the faulting probe and for every sibling alike,
a well-formed finding with status "error" and severity "Unknown". -/
theorem C1_fault_containment :
    (∀ (reg : String → Resolved) (vulns : List String) (e : PyErr),
      firstErr reg vulns = some e →
      ∀ w ∈ firstDedup vulns,
        findingFor (scan_findings reg vulns) w = some (normalize_one w (failDict e)) ∧
        fgetStr (normalize_one w (failDict e)) "status" = some "error" ∧
        fgetStr (normalize_one w (failDict e)) "severity" = some "Unknown") ∧
    (∀ (reg : String → Resolved) (vulns : List String) (v : String)
       (c : Capability) (e : PyErr),
      reg v = .cap c → callToolCallable c = .error e → v ∈ vulns →
      ∃ e2, firstErr reg vulns = some e2 ∧
        findingFor (scan_findings reg vulns) v
          = some (normalize_one v (failDict e2))) := by
  constructor
  · intro reg vulns e herr w hw
    refine ⟨?_, normalize_one_failDict_status w e, normalize_one_failDict_severity w e⟩
    rw [scan_findings_char, herr]
    simp only []
    exact findingFor_map (fun _ => failDict e) normalize_one_id (firstDedup vulns) w hw
  · intro reg vulns v c e hcap hcall hmem
    have hrun : run_tool_async reg v = .error e := by
      rw [run_tool_async, run_tool_asyncC, hcap]
      simp only []
      rw [show (callToolCallableC c).1 = Except.error e from hcall]
    obtain ⟨e2, he2⟩ := firstErr_of_mem_error reg v e hrun vulns hmem
    refine ⟨e2, he2, ?_⟩
    rw [scan_findings_char, he2]
    simp only []
    exact findingFor_map (fun _ => failDict e2) normalize_one_id (firstDedup vulns) v
      ((firstDedup_mem v vulns).2 hmem)

/-- Witness for C1 (amended): with the always-raising probe "alpha" and the
working probe "beta", the faulting probe's finding is the synthesized
failure finding. -/
theorem C1_fault_containment_witness :
    ∃ e2, firstErr regBoom ["alpha", "beta"] = some e2 ∧
      findingFor (scan_findings regBoom ["alpha", "beta"]) "alpha"
        = some (normalize_one "alpha" (failDict e2)) :=
  C1_fault_containment.2 regBoom ["alpha", "beta"] "alpha"
    ⟨true, false, false, .error (.other "boom")⟩ (.other "boom") rfl rfl (by decide)

/-- Counterexample to C1 as stated: the sibling probe "beta" succeeds with
severity "High" when scanned alone, but when the always-raising probe
"alpha" is requested alongside it, beta's finding is replaced by the
synthesized failure finding with severity "Unknown" — the faulting probe
does alter its siblings' findings. -/
theorem C1_counterexample :
    fgetStr ((findingFor (scan_findings regBoom ["alpha", "beta"]) "beta").getD .none)
      "severity" = some "Unknown" ∧
    fgetStr ((findingFor (scan_findings regBoom ["beta"]) "beta").getD .none)
      "severity" = some "High" ∧
    fgetStr ((findingFor (scan_findings regBoom ["alpha", "beta"]) "beta").getD .none)
        "severity"
      ≠ fgetStr ((findingFor (scan_findings regBoom ["beta"]) "beta").getD .none)
        "severity" := by
  refine ⟨rfl, rfl, by decide⟩

end VulnSight
